import Mathlib

/-!
# Calendar scheduler view (`src/Pages/AdminDashboard/Calender/Appointments.jsx`)

A shallow embedding of the `CalendarScheduler` component: the values it
receives from the backend, the display entries it keeps, the attendee parsing
and email shape check, the date arithmetic, the four request handlers and the
two click handlers, followed by the properties proved about them.

Conventions of the embedding.

* A handler is a function from the state of the render it was created in to an
  `Outcome`: the next state, the effects it performed in order (requests,
  notifications, console lines) and the error, if any, that a state updater
  threw while React re-rendered.
* What the handler cannot compute itself is an input: the stored session blob,
  the answer of the network to the request (`Env`), and the two engine
  functions `Date.parse` and `ToString` (`Host`).
* An `await` is not a scheduling point in the model: a handler runs from its
  first statement to its last against the state it started from.
-/

namespace CalendarScheduler

/-! ## JavaScript values -/

/-- JavaScript values as they come out of `JSON.parse` and `res.json()`, plus
`undefined` for an absent property. Numbers are the integer-valued ones. An
object is its list of properties; a property read returns the first match. -/
inductive JsVal where
  | undefined
  | null
  | bool (b : Bool)
  | num (n : Int)
  | str (s : String)
  | arr (items : List JsVal)
  | obj (fields : List (String × JsVal))

/-- Errors a handler can throw or receive. `error m` is `new Error(m)`: its
message is the text of `m`. `network` is the rejection of `fetch`. -/
inductive JsError where
  | typeError
  | rangeError
  | syntaxError
  | network
  | error (message : JsVal)

namespace JsVal

/-- The values `null` and `undefined`, on which a property read throws. -/
def isNullish : JsVal → Bool
  | undefined => true
  | null => true
  | _ => false

/-- ToBoolean: `undefined`, `null`, `false`, `0` and `""` are falsy. -/
def truthy : JsVal → Bool
  | undefined => false
  | null => false
  | bool b => b
  | num n => n != 0
  | str s => s != ""
  | arr _ => true
  | obj _ => true

/-- The operator `a || b`. -/
def or (a b : JsVal) : JsVal :=
  if a.truthy then a else b

/-- The property read `v.key` for the property names this view uses (`id`,
`summary`, `title`, `start`, `end`, `dateTime`, `meetLink`, `attendees`,
`message`, `token`, `email`): a TypeError on `null` and `undefined`, the
property of an object, and `undefined` on every other value, none of whose
prototypes defines one of these names. -/
def get (v : JsVal) (key : String) : Except JsError JsVal :=
  match v with
  | undefined => .error .typeError
  | null => .error .typeError
  | obj fields => .ok ((fields.lookup key).getD undefined)
  | _ => .ok undefined

/-- The comparison `a === b`. Primitives compare by value. Two objects or
arrays are equal only when they are the same reference; the identifiers
compared in this view come from different places (a list entry and the
calendar widget's event), so such a pair is never the same reference. -/
def strictEq : JsVal → JsVal → Bool
  | undefined, undefined => true
  | null, null => true
  | bool a, bool b => a == b
  | num a, num b => a == b
  | str a, str b => a == b
  | _, _ => false

end JsVal

/-! ## Display entries -/

/-- The `extendedProps` of a display entry. -/
structure ExtendedProps where
  meetLink : JsVal
  attendees : JsVal

/-- An entry of the `events` list, in the shape the calendar widget takes. -/
structure DisplayEvent where
  id : JsVal
  title : JsVal
  start : JsVal
  end_ : JsVal
  extendedProps : ExtendedProps

/-- The expression `x.dateTime || x` used for `start` and `end`. -/
def timeField (x : JsVal) : Except JsError JsVal := do
  let dateTime ← x.get "dateTime"
  pure (dateTime.or x)

/-- The callback of `data.map` in `fetchAppointments` (lines 39-48). -/
def mapEvent (event : JsVal) : Except JsError DisplayEvent := do
  let id ← event.get "id"
  let summary ← event.get "summary"
  let title ← event.get "title"
  let start ← event.get "start"
  let startTime ← timeField start
  let end_ ← event.get "end"
  let endTime ← timeField end_
  let meetLink ← event.get "meetLink"
  let attendees ← event.get "attendees"
  pure { id := id, title := summary.or title, start := startTime, end_ := endTime,
         extendedProps := { meetLink := meetLink, attendees := attendees } }

/-- The call `data.map(...)` of `fetchAppointments`: `data` has to be an array,
on any other value `map` is not a function (or the read itself throws). -/
def mapEvents (data : JsVal) : Except JsError (List DisplayEvent) :=
  match data with
  | .arr items => items.mapM mapEvent
  | _ => .error .typeError

/-- The entry `handleCreateEvent` appends for the response `data`
(lines 110-119). -/
def createdEntry (data : JsVal) : Except JsError DisplayEvent := do
  let id ← data.get "id"
  let summary ← data.get "summary"
  let title ← data.get "title"
  let start ← data.get "start"
  let startTime ← timeField start
  let end_ ← data.get "end"
  let endTime ← timeField end_
  let meetLink ← data.get "meetLink"
  let attendees ← data.get "attendees"
  pure { id := id, title := summary.or title, start := startTime, end_ := endTime,
         extendedProps := { meetLink := meetLink, attendees := attendees } }

/-- The updater of `handleCreateEvent`: `(prev) => [...prev, entry]`. -/
def appendCreated (data : JsVal) (prev : List DisplayEvent) :
    Except JsError (List DisplayEvent) := do
  let entry ← createdEntry data
  pure (prev ++ [entry])

/-- The replacement `handleUpdateEvent` builds for a matching entry
(lines 182-191): the entry spread, then `title`, `start`, `end` and
`extendedProps` from the response. -/
def updatedEntry (ev : DisplayEvent) (data : JsVal) : Except JsError DisplayEvent := do
  let title ← data.get "title"
  let start ← data.get "start"
  let startTime ← timeField start
  let end_ ← data.get "end"
  let endTime ← timeField end_
  let meetLink ← data.get "meetLink"
  let attendees ← data.get "attendees"
  pure { ev with title := title, start := startTime, end_ := endTime,
                 extendedProps := { meetLink := meetLink, attendees := attendees } }

/-- The updater of `handleUpdateEvent`:
`prev.map((ev) => ev.id === selectedEvent.id ? {...} : ev)`. -/
def replaceUpdated (selectedId : JsVal) (data : JsVal) (prev : List DisplayEvent) :
    Except JsError (List DisplayEvent) :=
  prev.mapM (fun ev => if ev.id.strictEq selectedId then updatedEntry ev data else pure ev)

/-- The updater of `handleDeleteEvent`:
`prev.filter((ev) => ev.id !== selectedEvent.id)`. -/
def removeDeleted (selectedId : JsVal) (prev : List DisplayEvent) : List DisplayEvent :=
  prev.filter (fun ev => !ev.id.strictEq selectedId)

/-- A record as the API returns it: its `start` and its `end` are there, each
a flat string or a nested object (anything but `null` and `undefined`). -/
def isRecord (r : JsVal) : Bool :=
  match r.get "start", r.get "end" with
  | .ok start, .ok end_ => !start.isNullish && !end_.isNullish
  | _, _ => false

/-! ## Attendee parsing and the email shape check -/

/-- The characters matched by `\s` and removed by `trim()`: the WhiteSpace and
LineTerminator code points. All of them are single UTF-16 code units, so
working on code points instead of code units changes nothing below. -/
def isWhiteSpace (c : Char) : Bool :=
  let n := c.toNat
  (9 ≤ n && n ≤ 13) || n == 32 || n == 160 || n == 5760 || (8192 ≤ n && n ≤ 8202) ||
    n == 8232 || n == 8233 || n == 8239 || n == 8287 || n == 12288 || n == 65279

/-- The class `[,;\s]`. -/
def isDelimiter (c : Char) : Bool :=
  c == ',' || c == ';' || isWhiteSpace c

/-- Whether the text starts with a character of `[,;\s]`. -/
def startsWithDelimiter : List Char → Bool
  | [] => false
  | c :: _ => isDelimiter c

/-- The call `s.split(/[,;\s]+/)`: the pieces between maximal runs of
delimiters. A leading or trailing run leaves an empty piece at that end, and
the empty text gives the single piece `""`. -/
def splitRuns : List Char → List (List Char)
  | [] => [[]]
  | c :: cs =>
    if isDelimiter c then
      if startsWithDelimiter cs then splitRuns cs else [] :: splitRuns cs
    else
      match splitRuns cs with
      | t :: ts => (c :: t) :: ts
      | [] => [[c]]

/-- The call `s.trim()`. -/
def trim (s : List Char) : List Char :=
  ((s.dropWhile isWhiteSpace).reverse.dropWhile isWhiteSpace).reverse

/-- The value of `emailList` in `handleCreateEvent` (lines 73-75) and
`handleUpdateEvent` (lines 150-152):
`attendees.split(/[,;\s]+/).filter((email) => email.trim() !== "")`. -/
def emailList (attendees : String) : List String :=
  ((splitRuns attendees.toList).filter (fun email => trim email != [])).map String.mk

/-- A character class of the email pattern: `\S` or a literal character. -/
inductive CharClass where
  | nonSpace
  | lit (c : Char)

/-- Whether a character belongs to a class. -/
def CharClass.test : CharClass → Char → Bool
  | .nonSpace, c => !isWhiteSpace c
  | .lit d, c => c == d

/-- One item of a pattern: a class, taken once or (`plus`) one or more times. -/
structure Piece where
  cls : CharClass
  plus : Bool

/-- Whether the whole text matches the sequence of items, as a backtracking
matcher anchored by `^` and `$` decides it. -/
def matchAll : List Piece → List Char → Bool
  | [], [] => true
  | [], _ :: _ => false
  | _ :: _, [] => false
  | p :: ps, c :: cs =>
    p.cls.test c && (matchAll ps cs || (p.plus && matchAll (p :: ps) cs))

/-- The pattern `/^\S+@\S+\.\S+$/`. -/
def emailPattern : List Piece :=
  [⟨.nonSpace, true⟩, ⟨.lit '@', false⟩, ⟨.nonSpace, true⟩, ⟨.lit '.', false⟩,
   ⟨.nonSpace, true⟩]

/-- The test `/^\S+@\S+\.\S+$/.test(email)`. -/
def emailShape (email : String) : Bool :=
  matchAll emailPattern email.toList

/-- The shape the email pattern describes, in words: a non-empty local part,
an `@`, a non-empty domain, a dot and a non-empty rest, with no whitespace
anywhere. -/
def LocalAtDomain (email : List Char) : Prop :=
  ∃ loc dom rest, loc ≠ [] ∧ dom ≠ [] ∧ rest ≠ [] ∧ email = loc ++ '@' :: (dom ++ '.' :: rest) ∧
    ∀ c ∈ email, isWhiteSpace c = false

/-- The value of `invalidEmails` in `handleCreateEvent` (lines 76-78). -/
def invalidEmails (emails : List String) : List String :=
  emails.filter (fun email => !emailShape email)

/-! ## Dates

A time value is a number of milliseconds since the epoch, or NaN (`none`).
The handlers only add an integer number of milliseconds to a time value. Both
operands and every in-range sum are integers below `2 ^ 53` in magnitude and
`d * 60000` is a multiple of 32, so the double arithmetic of the engine is
exact wherever the result is a valid date, and a sum that leaves the range of
`Date` leaves it in double arithmetic as well. Integer arithmetic followed by
`timeClip` therefore gives the engine's result. -/

/-- The number TimeClip accepts: at most 8.64e15 ms on either side of the
epoch; every other number makes an invalid Date. -/
def timeClip (t : Int) : Option Int :=
  if t.natAbs ≤ 8640000000000000 then some t else none

/-- The year, month (1-12) and day of the month of a day number counted from
the epoch, in the proleptic Gregorian calendar. -/
def civilFromDays (days : Int) : Int × Int × Int :=
  let z := days + 719468
  let era := z / 146097
  let doe := z % 146097
  let yoe := (doe - doe / 1460 + doe / 36524 - doe / 146096) / 365
  let doy := doe - (365 * yoe + yoe / 4 - yoe / 100)
  let mp := (5 * doy + 2) / 153
  let d := doy - (153 * mp + 2) / 5 + 1
  let m := if mp < 10 then mp + 3 else mp - 9
  let y := yoe + era * 400
  (if m ≤ 2 then y + 1 else y, m, d)

/-- The day number, counted from the epoch, of a calendar date. -/
def daysFromCivil (year month day : Int) : Int :=
  let y := if month ≤ 2 then year - 1 else year
  let era := y / 400
  let yoe := y % 400
  let mp := if month > 2 then month - 3 else month + 9
  let doy := (153 * mp + 2) / 5 + day - 1
  let doe := yoe * 365 + yoe / 4 - yoe / 100 + doy
  era * 146097 + doe - 719468

/-- The decimal digit of a number below ten. -/
def digitChar (n : Nat) : Char :=
  Char.ofNat (48 + n % 10)

/-- The last `width` decimal digits of `n`, padded with zeros. -/
def padDigits : Nat → Nat → List Char
  | 0, _ => []
  | width + 1, n => padDigits width (n / 10) ++ [digitChar n]

/-- The year as `toISOString` writes it: four digits from 0 to 9999, a sign
and six digits otherwise. -/
def yearText (y : Int) : List Char :=
  if 0 ≤ y ∧ y ≤ 9999 then padDigits 4 y.toNat
  else (if y < 0 then '-' else '+') :: padDigits 6 y.natAbs

/-- The text `Date.prototype.toISOString` gives for a valid time value:
`YYYY-MM-DDTHH:mm:ss.sssZ`. -/
def toISOString (t : Int) : String :=
  let days := t / 86400000
  let ms := (t % 86400000).toNat
  let ymd := civilFromDays days
  String.mk (yearText ymd.1 ++ '-' :: padDigits 2 ymd.2.1.toNat ++ '-' :: padDigits 2 ymd.2.2.toNat
    ++ 'T' :: padDigits 2 (ms / 3600000) ++ ':' :: padDigits 2 (ms / 60000 % 60)
    ++ ':' :: padDigits 2 (ms / 1000 % 60) ++ '.' :: padDigits 3 (ms % 1000) ++ ['Z'])

/-- The value of a decimal digit. -/
def digitVal (c : Char) : Option Nat :=
  if 48 ≤ c.toNat ∧ c.toNat ≤ 57 then some (c.toNat - 48) else none

/-- The number written by a list of decimal digits. -/
def digitsVal (cs : List Char) : Option Nat :=
  cs.foldlM (fun acc c => (digitVal c).map (fun d => acc * 10 + d)) 0

/-- The number of days of a month. -/
def daysInMonth (year : Int) (month : Nat) : Nat :=
  if month = 2 then
    (if year % 4 = 0 ∧ (year % 100 ≠ 0 ∨ year % 400 = 0) then 29 else 28)
  else if month = 4 ∨ month = 6 ∨ month = 9 ∨ month = 11 then 30 else 31

/-- The date part `YYYY-MM-DD` (or `±YYYYYY-MM-DD`): the day number of the
date. -/
def parseDatePart (cs : List Char) : Option Int :=
  let signed : Option (Int × List Char) :=
    match cs with
    | '+' :: rest => (digitsVal (rest.take 6)).map (fun y => ((y : Int), rest.drop 6))
    | '-' :: rest => (digitsVal (rest.take 6)).map (fun y => (-(y : Int), rest.drop 6))
    | _ => (digitsVal (cs.take 4)).map (fun y => ((y : Int), cs.drop 4))
  match signed with
  | some (year, ['-', m1, m2, '-', d1, d2]) =>
    match digitsVal [m1, m2], digitsVal [d1, d2] with
    | some month, some day =>
      if 1 ≤ month ∧ month ≤ 12 ∧ 1 ≤ day ∧ day ≤ daysInMonth year month then
        some (daysFromCivil year month day)
      else none
    | _, _ => none
  | _ => none

/-- The time part `HH:mm:ss` or `HH:mm:ss.sss`: the milliseconds into the
day. -/
def parseTimePart (cs : List Char) : Option Int :=
  let fields : Option (Nat × Nat × Nat × Nat) :=
    match cs with
    | [h1, h2, ':', m1, m2, ':', s1, s2] =>
      match digitsVal [h1, h2], digitsVal [m1, m2], digitsVal [s1, s2] with
      | some h, some m, some s => some (h, m, s, 0)
      | _, _, _ => none
    | [h1, h2, ':', m1, m2, ':', s1, s2, '.', f1, f2, f3] =>
      match digitsVal [h1, h2], digitsVal [m1, m2], digitsVal [s1, s2], digitsVal [f1, f2, f3] with
      | some h, some m, some s, some f => some (h, m, s, f)
      | _, _, _, _ => none
    | _ => none
  match fields with
  | some (h, m, s, f) =>
    if (h ≤ 23 ∧ m ≤ 59 ∧ s ≤ 59) ∨ (h = 24 ∧ m = 0 ∧ s = 0 ∧ f = 0) then
      some ((((h * 60 + m) * 60 + s) * 1000 + f : Nat) : Int)
    else none
  | none => none

/-- The zone `Z` or `±HH:mm`: the offset from UTC in milliseconds. -/
def parseZone (cs : List Char) : Option Int :=
  match cs with
  | ['Z'] => some 0
  | [sign, h1, h2, ':', m1, m2] =>
    match digitsVal [h1, h2], digitsVal [m1, m2] with
    | some h, some m =>
      if h ≤ 23 ∧ m ≤ 59 then
        if sign = '+' then some (((h * 60 + m) * 60000 : Nat) : Int)
        else if sign = '-' then some (-(((h * 60 + m) * 60000 : Nat) : Int))
        else none
      else none
    | _, _ => none
  | _ => none

/-- The part of `Date.parse` that ECMAScript fixes for every engine and every
time zone: a date `YYYY-MM-DD` alone (midnight UTC), or a date, `T`, a time
with seconds and a zone (`Z` or `±HH:mm`). Every other text is answered with
`none` here; what an engine makes of it is the engine's choice. -/
def isoDateParse (text : String) : Option Int :=
  let cs := text.toList
  match cs.splitOnP (fun c => c == 'T') with
  | [date] => (parseDatePart date).bind (fun days => timeClip (days * 86400000))
  | [date, rest] =>
    let zoneStart := rest.length - (if rest.getLast? = some 'Z' then 1 else 6)
    match parseDatePart date, parseTimePart (rest.take zoneStart), parseZone (rest.drop zoneStart) with
    | some days, some ms, some offset => timeClip (days * 86400000 + ms - offset)
    | _, _, _ => none
  | _ => none

/-- The engine functions the view calls and the model does not fix. -/
structure Host where
  /-- The function `Date.parse`, with `none` for NaN. -/
  dateParse : String → Option Int

/-- A host whose `Date.parse` reads the standard format only. -/
def isoHost : Host :=
  { dateParse := isoDateParse }

/-- The expression `new Date(selectedDate).getTime()`: `selectedDate` is
`null` before the first date click, and `new Date(null)` is the epoch. -/
def newDate (host : Host) (selectedDate : Option String) : Option Int :=
  match selectedDate with
  | none => some 0
  | some text => (host.dateParse text).bind timeClip

/-- The Number `formData.duration` converts to in `formData.duration * 60000`:
an integer number of minutes, or NaN for a draft that is not numeric. The
draft holds integer minutes; fractional minutes are outside the model. -/
inductive Duration where
  | minutes (d : Int)
  | nan

/-- The expression `new Date(start + formData.duration * 60000).toISOString()`
for a start time value: a RangeError on an invalid Date. -/
def endTimestamp (start : Option Int) (duration : Duration) : Except JsError String :=
  match start, duration with
  | some t, .minutes d =>
    match timeClip (t + d * 60000) with
    | some v => .ok (toISOString v)
    | none => .error .rangeError
  | _, _ => .error .rangeError

/-! ## State, inputs and effects -/

/-- The form draft `formData`. -/
structure FormData where
  title : String
  duration : Duration
  attendees : String

/-- A property of the calendar widget's event that holds a Date or `null`;
the Date is its time value. -/
inductive DateOrNull where
  | null
  | date (time : Option Int)

/-- The calendar widget's event object (`info.event`, kept as
`selectedEvent`), as far as the view reads it. `attendees` is
`extendedProps.attendees`. -/
structure CalendarEvent where
  id : JsVal
  title : String
  start : DateOrNull
  end_ : DateOrNull
  attendees : JsVal

/-- The state of the component: its six `useState` cells. -/
structure State where
  events : List DisplayEvent
  selectedDate : Option String
  isCreateModalOpen : Bool
  isEditModalOpen : Bool
  formData : FormData
  selectedEvent : Option CalendarEvent

/-- The state of the first render. -/
def State.initial : State :=
  { events := [], selectedDate := none, isCreateModalOpen := false, isEditModalOpen := false,
    formData := { title := "", duration := .minutes 30, attendees := "" },
    selectedEvent := none }

/-- The item `userDetails` of local storage: absent (or empty), a text
`JSON.parse` rejects, or the value it parses to. -/
inductive StoredSession where
  | absent
  | malformed
  | parsed (v : JsVal)

/-- How the network answers the one request of a handler: `fetch` rejects, or
a response arrives with its `ok` flag and the value `res.json()` gives
(`none` when the body is not JSON). -/
inductive FetchOutcome where
  | rejected
  | response (ok : Bool) (json : Option JsVal)

/-- A request failed: a transport error or a status outside 2xx. -/
def FetchOutcome.failed : FetchOutcome → Bool
  | .rejected => true
  | .response ok _ => !ok

/-- The inputs of one run of a request handler. -/
structure Env where
  session : StoredSession
  answer : FetchOutcome

/-- The HTTP methods used. -/
inductive Method where
  | GET
  | POST
  | PUT
  | DELETE

/-- The JSON body `{title, start, end, attendees}` of a create or update. -/
structure AppointmentBody where
  title : String
  start : Option String
  end_ : String
  attendees : List String

/-- A call of `fetch`: the method, the identifier appended to the API path
(if any), the token of the `Authorization: Bearer` header (`none` for the
empty header) and the body. -/
structure Request where
  method : Method
  target : Option JsVal
  bearer : Option JsVal
  body : Option AppointmentBody

/-- The text of a notification: a literal text or the message of an error. -/
inductive Notice where
  | text (s : String)
  | ofError (e : JsError)

/-- What a handler does to the outside, in order. -/
inductive Effect where
  | fetch (request : Request)
  | consoleError (label : String) (e : JsError)
  | toastError (notice : Notice)
  | toastSuccess (text : String)

/-- Whether the effect is an error notification (`toast.error`). -/
def Effect.isErrorNotice : Effect → Bool
  | .toastError _ => true
  | _ => false

/-- Whether the effect is a network call. -/
def Effect.isFetch : Effect → Bool
  | .fetch _ => true
  | _ => false

/-- The result of one run of a request handler. `renderError` is the error a
state updater threw when React ran it: it is thrown outside the handler's
`try`, no state is committed and the view is torn down. -/
structure Outcome where
  state : State
  effects : List Effect
  renderError : Option JsError

/-- The two lines `const tokenData = localStorage.getItem("userDetails")` and
`const authToken = tokenData ? JSON.parse(tokenData).token : null`. -/
def readToken : StoredSession → Except JsError JsVal
  | .absent => .ok .null
  | .malformed => .error .syntaxError
  | .parsed v => v.get "token"

/-- The header value `authToken ? "Bearer " + authToken : ""`. -/
def bearerOf (authToken : JsVal) : Option JsVal :=
  if authToken.truthy then some authToken else none

/-- The two statements `const data = await res.json()` and
`if (!res.ok) throw new Error(data.message || fallback)`, after the `await`
of `fetch` itself. -/
def readJson (answer : FetchOutcome) (fallback : String) : Except JsError JsVal :=
  match answer with
  | .rejected => .error .network
  | .response _ none => .error .syntaxError
  | .response false (some data) =>
    match data.get "message" with
    | .ok message => .error (.error (message.or (.str fallback)))
    | .error e => .error e
  | .response true (some data) => .ok data

/-- A `catch` block: `console.error(label, err); toast.error(err.message)`,
after the effects already performed; the state is left as it was. -/
def caught (st : State) (label : String) (done : List Effect) (e : JsError) : Outcome :=
  { state := st, effects := done ++ [.consoleError label e, .toastError (.ofError e)],
    renderError := none }

/-- The end of a successful `try` block: `setEvents(updater)`,
`toast.success(text)` and the closing of the modal. React runs the updater on
the current list; an error it throws is a render error. -/
def commit (st : State) (updated : Except JsError (List DisplayEvent)) (close : State → State)
    (effects : List Effect) : Outcome :=
  match updated with
  | .ok events => { state := close { st with events := events }, effects := effects,
                    renderError := none }
  | .error e => { state := st, effects := effects, renderError := some e }

/-! ## The request handlers -/

/-- The handler `fetchAppointments` (lines 25-55). -/
def fetchAppointments (env : Env) (st : State) : Outcome :=
  let label := "Error fetching appointments:"
  match readToken env.session with
  | .error e => caught st label [] e
  | .ok authToken =>
    let sent := [Effect.fetch { method := .GET, target := none, bearer := bearerOf authToken,
                                body := none }]
    match readJson env.answer "Failed to fetch events" with
    | .error e => caught st label sent e
    | .ok data =>
      match mapEvents data with
      | .error e => caught st label sent e
      | .ok mappedEvents =>
        { state := { st with events := mappedEvents }, effects := sent, renderError := none }

/-- The handler `handleDateClick` (lines 64-68). -/
def handleDateClick (st : State) (dateStr : String) : State :=
  { st with selectedDate := some dateStr,
            formData := { title := "", duration := .minutes 30, attendees := "" },
            isCreateModalOpen := true }

/-- The object `newEvent` of `handleCreateEvent` (lines 84-91). -/
def newEvent (host : Host) (st : State) (emails : List String) :
    Except JsError AppointmentBody :=
  match endTimestamp (newDate host st.selectedDate) st.formData.duration with
  | .ok end_ => .ok { title := st.formData.title, start := st.selectedDate, end_ := end_,
                      attendees := emails }
  | .error e => .error e

/-- The `try` statement of `handleCreateEvent` (lines 83-127). -/
def submitNewEvent (host : Host) (env : Env) (st : State) (emails : List String) : Outcome :=
  let label := "Error scheduling appointment:"
  match newEvent host st emails with
  | .error e => caught st label [] e
  | .ok body =>
    match readToken env.session with
    | .error e => caught st label [] e
    | .ok authToken =>
      let sent := [Effect.fetch { method := .POST, target := none, bearer := bearerOf authToken,
                                  body := some body }]
      match readJson env.answer "Failed to create appointment" with
      | .error e => caught st label sent e
      | .ok data =>
        commit st (appendCreated data st.events) (fun s => { s with isCreateModalOpen := false })
          (sent ++ [.toastSuccess "Appointment scheduled!"])

/-- The handler `handleCreateEvent` (lines 70-128). -/
def handleCreateEvent (host : Host) (env : Env) (st : State) : Outcome :=
  let emails := emailList st.formData.attendees
  let invalid := invalidEmails emails
  if invalid.length > 0 then
    { state := st,
      effects := [.toastError (.text ("Invalid email(s): " ++ ", ".intercalate invalid))],
      renderError := none }
  else
    submitNewEvent host env st emails

mutual
/-- The text of a value (ToString). Numbers are written in decimal, as the
engine writes integers below 1e21; an array is its elements joined by a
comma. -/
def toText : JsVal → String
  | .undefined => "undefined"
  | .null => "null"
  | .bool b => if b then "true" else "false"
  | .num n => toString n
  | .str s => s
  | .arr items => joinText items
  | .obj _ => "[object Object]"
/-- The call `items.join(",")`. -/
def joinText : List JsVal → String
  | [] => ""
  | [x] => elemText x
  | x :: y :: rest => elemText x ++ "," ++ joinText (y :: rest)
/-- The text of an array element inside `join`: empty for `null` and
`undefined`, its ToString otherwise. -/
def elemText : JsVal → String
  | .undefined => ""
  | .null => ""
  | .bool b => if b then "true" else "false"
  | .num n => toString n
  | .str s => s
  | .arr items => joinText items
  | .obj _ => "[object Object]"
end

/-- The prefill of the attendee field in `handleEventClick` (lines 140-142):
`attendees?.map((a) => a.email).join(", ") || ""`. -/
def prefillAttendees (attendees : JsVal) : Except JsError String :=
  match attendees with
  | .undefined => .ok ""
  | .null => .ok ""
  | .arr items =>
    match items.mapM (fun a => a.get "email") with
    | .ok emails =>
      .ok (", ".intercalate (emails.map elemText))
    | .error e => .error e
  | _ => .error .typeError

/-- The expression `new Date(x)` for a Date or `null`, as a time value. -/
def DateOrNull.time : DateOrNull → Option Int
  | .null => some 0
  | .date t => t

/-- The prefill of the duration in `handleEventClick` (lines 137-139):
`Math.round((new Date(end) - new Date(start)) / 60000)`, which rounds halves
up. -/
def prefillDuration (start end_ : DateOrNull) : Duration :=
  match end_.time, start.time with
  | some e, some s => .minutes ((2 * (e - s) + 60000) / 120000)
  | _, _ => .nan

/-- The handler `handleEventClick` (lines 133-145), with the error it throws
when the attendee list cannot be read: the selection is then the only state
change. -/
def handleEventClick (st : State) (event : CalendarEvent) : State × Option JsError :=
  let selected := { st with selectedEvent := some event }
  match prefillAttendees event.attendees with
  | .error e => (selected, some e)
  | .ok attendees =>
    ({ selected with
        formData := { title := event.title,
                      duration := prefillDuration event.start event.end_,
                      attendees := attendees },
        isEditModalOpen := true }, none)

/-- The object `updatedEvent` of `handleUpdateEvent` (lines 155-162): the
start is the selected event's own start, whatever the draft says. -/
def updatedEvent (form : FormData) (selected : CalendarEvent) (emails : List String) :
    Except JsError AppointmentBody :=
  match selected.start with
  | .null => .error .typeError
  | .date none => .error .rangeError
  | .date (some t) =>
    match endTimestamp (some t) form.duration with
    | .ok end_ => .ok { title := form.title, start := some (toISOString t), end_ := end_,
                        attendees := emails }
    | .error e => .error e

/-- The handler `handleUpdateEvent` (lines 147-202). -/
def handleUpdateEvent (env : Env) (st : State) : Outcome :=
  let label := "Error updating appointment:"
  let emails := emailList st.formData.attendees
  match st.selectedEvent with
  | none => caught st label [] .typeError
  | some selected =>
    match updatedEvent st.formData selected emails with
    | .error e => caught st label [] e
    | .ok body =>
      match readToken env.session with
      | .error e => caught st label [] e
      | .ok authToken =>
        let sent := [Effect.fetch { method := .PUT, target := some selected.id,
                                    bearer := bearerOf authToken, body := some body }]
        match readJson env.answer "Failed to update appointment" with
        | .error e => caught st label sent e
        | .ok data =>
          commit st (replaceUpdated selected.id data st.events)
            (fun s => { s with isEditModalOpen := false })
            (sent ++ [.toastSuccess "Appointment updated!"])

/-- The handler `handleDeleteEvent` (lines 207-228). -/
def handleDeleteEvent (env : Env) (st : State) : Outcome :=
  let label := "Error deleting appointment:"
  match readToken env.session, st.selectedEvent with
  | .error e, _ => caught st label [] e
  | .ok _, none => caught st label [] .typeError
  | .ok authToken, some selected =>
    let sent := [Effect.fetch { method := .DELETE, target := some selected.id,
                                bearer := bearerOf authToken, body := none }]
    match env.answer with
    | .rejected => caught st label sent .network
    | .response false _ => caught st label sent (.error (.str "Failed to delete appointment"))
    | .response true _ =>
      { state := { st with events := removeDeleted selected.id st.events,
                           isEditModalOpen := false },
        effects := sent ++ [.toastSuccess "Appointment deleted!"], renderError := none }

/-! ## The view as a transition system -/

/-- What can happen to the mounted view: the mount effect, the two calendar
clicks, the two form submissions, the delete button, the close and cancel
buttons of each modal, and the three input fields. -/
inductive Action where
  | mount (env : Env)
  | dateClick (dateStr : String)
  | eventClick (event : CalendarEvent)
  | submitCreate (env : Env)
  | submitUpdate (env : Env)
  | deleteClick (env : Env)
  | closeCreate
  | closeEdit
  | changeTitle (value : String)
  | changeDuration (value : Duration)
  | changeAttendees (value : String)

/-- The state after one action. -/
def step (host : Host) (st : State) : Action → State
  | .mount env => (fetchAppointments env st).state
  | .dateClick dateStr => handleDateClick st dateStr
  | .eventClick event => (handleEventClick st event).1
  | .submitCreate env => (handleCreateEvent host env st).state
  | .submitUpdate env => (handleUpdateEvent env st).state
  | .deleteClick env => (handleDeleteEvent env st).state
  | .closeCreate => { st with isCreateModalOpen := false }
  | .closeEdit => { st with isEditModalOpen := false }
  | .changeTitle value => { st with formData := { st.formData with title := value } }
  | .changeDuration value => { st with formData := { st.formData with duration := value } }
  | .changeAttendees value => { st with formData := { st.formData with attendees := value } }

/-- The state after a sequence of actions. -/
def run (host : Host) (st : State) (actions : List Action) : State :=
  actions.foldl (step host) st

/-- Whether the pointer can reach the calendar for this action: an open modal
is a fixed overlay over the whole viewport, so a calendar click is possible
only while the other modal is closed. Every other action is always possible. -/
def Action.reachesCalendar (st : State) : Action → Bool
  | .dateClick _ => !st.isEditModalOpen
  | .eventClick _ => !st.isCreateModalOpen
  | _ => true

/-- The states the view reaches from its first render when calendar clicks
happen only where the pointer can reach the calendar. -/
inductive Reachable (host : Host) : State → Prop where
  | initial : Reachable host State.initial
  | step (st : State) (a : Action) : Reachable host st → a.reachesCalendar st = true →
      Reachable host (step host st a)

/-- The modal flags of `after` are open only where those of `st` are: going
from `st` to `after` opens no modal. -/
def ClosesOnly (st after : State) : Prop :=
  (after.isCreateModalOpen = true → st.isCreateModalOpen = true) ∧
  (after.isEditModalOpen = true → st.isEditModalOpen = true)

/-! ## Sample inputs -/

/-- The created record of the running example, `{id: 5, title: "X", start, end}`,
with a nested start and a flat end. -/
def sampleRecord : JsVal :=
  .obj [("id", .num 5), ("title", .str "X"),
        ("start", .obj [("dateTime", .str "2024-01-01T10:00:00Z")]),
        ("end", .str "2024-01-01T10:30:00.000Z")]

/-- A display entry with the given identifier. -/
def sampleEntry (id : Int) : DisplayEvent :=
  { id := .num id, title := .str "Standup", start := .str "2024-01-02T09:00:00Z",
    end_ := .str "2024-01-02T09:15:00Z",
    extendedProps := { meetLink := .undefined, attendees := .undefined } }

/-- A selected event with identifier 5 that starts on 2024-01-02 at 09:00 UTC. -/
def sampleSelected : CalendarEvent :=
  { id := .num 5, title := "Standup", start := .date (some 1704186000000),
    end_ := .date (some 1704186900000), attendees := .undefined }

/-- A state with three entries, a clicked date, a filled draft and a selected
event. -/
def sampleState : State :=
  { events := [sampleEntry 4, sampleEntry 5, sampleEntry 6],
    selectedDate := some "2024-01-01T10:00:00Z",
    isCreateModalOpen := true, isEditModalOpen := false,
    formData := { title := "X", duration := .minutes 30, attendees := "a@b.com, c@d.com" },
    selectedEvent := some sampleSelected }

/-- A run in which a token is stored and the request is answered with a 2xx
status and the sample record. -/
def okEnv : Env :=
  { session := .parsed (.obj [("token", .str "t0k3n")]),
    answer := .response true (some sampleRecord) }

/-- A run in which the request is answered with a status outside 2xx and a
message. -/
def failedEnv : Env :=
  { session := .absent,
    answer := .response false (some (.obj [("message", .str "Server error")])) }

/-- The sample state with the attendee text of the validation example. -/
def flaggedState : State :=
  { sampleState with
    formData := { title := "X", duration := .minutes 30, attendees := "a@b.com, bad, c@d.com" } }

/-- The sample state with a draft of minus thirty minutes. -/
def backwardState : State :=
  { sampleState with
    formData := { title := "X", duration := .minutes (-30), attendees := "a@b.com, c@d.com" } }

/-- The sample state with a draft of zero minutes. -/
def zeroState : State :=
  { sampleState with
    formData := { title := "X", duration := .minutes 0, attendees := "a@b.com, c@d.com" } }

/-- A record whose nested `dateTime` is there and empty. -/
def emptyNestedRecord : JsVal :=
  .obj [("id", .num 7), ("title", .str "Y"), ("start", .obj [("dateTime", .str "")]),
        ("end", .str "2024-01-01T10:30:00.000Z")]

/-! ## Properties -/

/-! ### Reading a record -/

theorem get_ok_of_not_nullish (v : JsVal) (key : String) (h : v.isNullish = false) :
    ∃ x, v.get key = .ok x := by
  cases v <;> simp [JsVal.get, JsVal.isNullish] at h ⊢

theorem timeField_ok (x : JsVal) (h : x.isNullish = false) :
    ∃ dateTime, x.get "dateTime" = .ok dateTime ∧ timeField x = .ok (dateTime.or x) := by
  obtain ⟨dateTime, hd⟩ := get_ok_of_not_nullish x "dateTime" h
  exact ⟨dateTime, hd, by simp [timeField, hd, bind, Except.bind, pure, Except.pure]⟩

theorem isRecord_fields (r : JsVal) (h : isRecord r = true) :
    r.isNullish = false ∧ ∃ start end_, r.get "start" = .ok start ∧ r.get "end" = .ok end_ ∧
      start.isNullish = false ∧ end_.isNullish = false := by
  unfold isRecord at h
  cases hs : r.get "start" with
  | error e => simp [hs] at h
  | ok start =>
    cases he : r.get "end" with
    | error e => simp [hs, he] at h
    | ok end_ =>
      simp [hs, he] at h
      refine ⟨?_, start, end_, rfl, rfl, h.1, h.2⟩
      cases r <;> simp [JsVal.get, JsVal.isNullish] at hs ⊢

/-- What `mapEvent` returns on a record, field by field. -/
theorem mapEvent_of_record (r : JsVal) (h : isRecord r = true) :
    ∃ id summary title start end_ startTime endTime meetLink attendees,
      r.get "id" = .ok id ∧ r.get "summary" = .ok summary ∧ r.get "title" = .ok title ∧
      r.get "start" = .ok start ∧ r.get "end" = .ok end_ ∧
      start.get "dateTime" = .ok startTime ∧ end_.get "dateTime" = .ok endTime ∧
      r.get "meetLink" = .ok meetLink ∧ r.get "attendees" = .ok attendees ∧
      mapEvent r = .ok { id := id, title := summary.or title, start := startTime.or start,
                         end_ := endTime.or end_,
                         extendedProps := { meetLink := meetLink, attendees := attendees } } := by
  obtain ⟨hr, start, end_, hs, he, hsn, hen⟩ := isRecord_fields r h
  obtain ⟨id, hid⟩ := get_ok_of_not_nullish r "id" hr
  obtain ⟨summary, hsum⟩ := get_ok_of_not_nullish r "summary" hr
  obtain ⟨title, htitle⟩ := get_ok_of_not_nullish r "title" hr
  obtain ⟨meetLink, hmeet⟩ := get_ok_of_not_nullish r "meetLink" hr
  obtain ⟨attendees, hatt⟩ := get_ok_of_not_nullish r "attendees" hr
  obtain ⟨startTime, hst, hstf⟩ := timeField_ok start hsn
  obtain ⟨endTime, het, hetf⟩ := timeField_ok end_ hen
  refine ⟨id, summary, title, start, end_, startTime, endTime, meetLink, attendees,
    hid, hsum, htitle, hs, he, hst, het, hmeet, hatt, ?_⟩
  simp [mapEvent, hid, hsum, htitle, hs, he, hstf, hetf, hmeet, hatt, bind, Except.bind, pure,
    Except.pure]

theorem createdEntry_eq_mapEvent (r : JsVal) : createdEntry r = mapEvent r := rfl


theorem mapM_ok_of_forall {α β : Type} (f : α → Except JsError β) (g : α → β) (xs : List α)
    (h : ∀ x ∈ xs, f x = .ok (g x)) : xs.mapM f = .ok (xs.map g) := by
  induction xs with
  | nil => rfl
  | cons x xs ih =>
    have hx := h x (List.mem_cons_self x xs)
    have hxs := ih (fun y hy => h y (List.mem_cons_of_mem x hy))
    rw [List.mapM_cons, hx, hxs]
    rfl

/-! ### The list after a successful create, delete and update -/

/-- C1: when `handleCreateEvent` passes its checks and its request is answered
with a 2xx status and a record `r`, the list afterwards is the previous list
followed by exactly one new entry whose id is `r.id`: its length has grown by
one, its first entries are the previous ones in their order, and what follows
them is the new entry alone. -/
theorem handleCreateEvent_appends (host : Host) (env : Env) (st : State)
    (body : AppointmentBody) (authToken r : JsVal)
    (hvalid : invalidEmails (emailList st.formData.attendees) = [])
    (hbody : newEvent host st (emailList st.formData.attendees) = .ok body)
    (htoken : readToken env.session = .ok authToken)
    (hanswer : env.answer = .response true (some r))
    (hrecord : isRecord r = true) :
    ∃ entry,
      (handleCreateEvent host env st).state.events = st.events ++ [entry] ∧
      r.get "id" = .ok entry.id ∧
      (handleCreateEvent host env st).state.events.length = st.events.length + 1 ∧
      (handleCreateEvent host env st).state.events.take st.events.length = st.events ∧
      (handleCreateEvent host env st).state.events.drop st.events.length = [entry] := by
  obtain ⟨id, summary, title, start, end_, startTime, endTime, meetLink, attendees,
    hid, -, -, -, -, -, -, -, -, hmap⟩ := mapEvent_of_record r hrecord
  have hrun : (handleCreateEvent host env st).state.events = st.events ++
      [{ id := id, title := summary.or title, start := startTime.or start,
         end_ := endTime.or end_,
         extendedProps := { meetLink := meetLink, attendees := attendees } }] := by
    simp [handleCreateEvent, hvalid, submitNewEvent, hbody, htoken, hanswer, readJson, commit,
      appendCreated, createdEntry_eq_mapEvent, hmap, bind, Except.bind, pure, Except.pure]
  refine ⟨_, hrun, hid, ?_, ?_, ?_⟩
  · rw [hrun]; simp
  · rw [hrun]; simp
  · rw [hrun]; simp

/-- C1 at the sample: the create of the running example, answered with the
record whose id is 5. -/
theorem handleCreateEvent_appends_witness :
    invalidEmails (emailList sampleState.formData.attendees) = [] ∧
    isRecord sampleRecord = true ∧
    ∃ entry,
      (handleCreateEvent isoHost okEnv sampleState).state.events =
        sampleState.events ++ [entry] ∧
      sampleRecord.get "id" = .ok entry.id ∧
      (handleCreateEvent isoHost okEnv sampleState).state.events.length =
        sampleState.events.length + 1 ∧
      (handleCreateEvent isoHost okEnv sampleState).state.events.take
        sampleState.events.length = sampleState.events ∧
      (handleCreateEvent isoHost okEnv sampleState).state.events.drop
        sampleState.events.length = [entry] :=
  ⟨by decide, by decide,
    handleCreateEvent_appends isoHost okEnv sampleState
      { title := "X", start := some "2024-01-01T10:00:00Z",
        end_ := "2024-01-01T10:30:00.000Z", attendees := ["a@b.com", "c@d.com"] }
      (.str "t0k3n") sampleRecord (by decide) (by rfl) (by rfl) (by rfl) (by decide)⟩

/-- C2: after `handleDeleteEvent` has deleted the selected event (identifier
`k`) with a 2xx answer, the list has no entry whose id is `k`, and its entries
whose id differs from `k` are those of the previous list, unchanged and in
their order. -/
theorem handleDeleteEvent_removes (env : Env) (st : State) (selected : CalendarEvent)
    (authToken : JsVal) (json : Option JsVal)
    (hselected : st.selectedEvent = some selected)
    (htoken : readToken env.session = .ok authToken)
    (hanswer : env.answer = .response true json) :
    (handleDeleteEvent env st).state.events.countP (fun ev => ev.id.strictEq selected.id) = 0 ∧
    (handleDeleteEvent env st).state.events.filter (fun ev => !ev.id.strictEq selected.id) =
      st.events.filter (fun ev => !ev.id.strictEq selected.id) ∧
    (handleDeleteEvent env st).state.events.Sublist st.events := by
  have hrun : (handleDeleteEvent env st).state.events =
      st.events.filter (fun ev => !ev.id.strictEq selected.id) := by
    simp [handleDeleteEvent, hselected, htoken, hanswer, removeDeleted]
  rw [hrun]
  refine ⟨?_, ?_, List.filter_sublist _⟩
  · simp [List.countP_eq_zero]
  · simp

/-- C2 at the sample: deleting the event with id 5 from the three entries. -/
theorem handleDeleteEvent_removes_witness :
    sampleState.selectedEvent = some sampleSelected ∧
    (handleDeleteEvent okEnv sampleState).state.events.countP
      (fun ev => ev.id.strictEq sampleSelected.id) = 0 ∧
    (handleDeleteEvent okEnv sampleState).state.events.filter
      (fun ev => !ev.id.strictEq sampleSelected.id) =
      sampleState.events.filter (fun ev => !ev.id.strictEq sampleSelected.id) ∧
    (handleDeleteEvent okEnv sampleState).state.events.Sublist sampleState.events :=
  ⟨rfl, handleDeleteEvent_removes okEnv sampleState sampleSelected (.str "t0k3n")
    (some sampleRecord) rfl (by rfl) (by rfl)⟩

/-- What the updater of `handleUpdateEvent` returns for a record. -/
theorem replaceUpdated_of_record (selectedId r : JsVal) (prev : List DisplayEvent)
    (h : isRecord r = true) :
    ∃ title start end_ startTime endTime meetLink attendees,
      r.get "title" = .ok title ∧ r.get "start" = .ok start ∧ r.get "end" = .ok end_ ∧
      start.get "dateTime" = .ok startTime ∧ end_.get "dateTime" = .ok endTime ∧
      r.get "meetLink" = .ok meetLink ∧ r.get "attendees" = .ok attendees ∧
      replaceUpdated selectedId r prev = .ok (prev.map (fun ev =>
        if ev.id.strictEq selectedId then
          { ev with title := title, start := startTime.or start, end_ := endTime.or end_,
                    extendedProps := { meetLink := meetLink, attendees := attendees } }
        else ev)) := by
  obtain ⟨id, summary, title, start, end_, startTime, endTime, meetLink, attendees,
    -, -, htitle, hs, he, hst, het, hmeet, hatt, -⟩ := mapEvent_of_record r h
  refine ⟨title, start, end_, startTime, endTime, meetLink, attendees,
    htitle, hs, he, hst, het, hmeet, hatt, ?_⟩
  unfold replaceUpdated
  apply mapM_ok_of_forall
  intro ev _
  by_cases hev : ev.id.strictEq selectedId = true
  · simp [hev, updatedEntry, htitle, hs, he, timeField, hst, het, hmeet, hatt, bind, Except.bind,
      pure, Except.pure]
  · simp [hev, pure, Except.pure]

/-- C3: after `handleUpdateEvent` has updated the selected event (identifier
`k`) with a 2xx answer carrying the record `r`, the list has the length and
the order it had: entry by entry, one whose id differs from `k` is unchanged,
and one whose id is `k` keeps its id and has its title, start, end, meetLink
and attendees from `r`. -/
theorem handleUpdateEvent_replaces (env : Env) (st : State) (selected : CalendarEvent)
    (body : AppointmentBody) (authToken r : JsVal)
    (hselected : st.selectedEvent = some selected)
    (hbody : updatedEvent st.formData selected (emailList st.formData.attendees) = .ok body)
    (htoken : readToken env.session = .ok authToken)
    (hanswer : env.answer = .response true (some r))
    (hrecord : isRecord r = true) :
    (handleUpdateEvent env st).state.events.length = st.events.length ∧
    List.Forall₂
      (fun (old new : DisplayEvent) =>
        (old.id.strictEq selected.id = false → new = old) ∧
        (old.id.strictEq selected.id = true →
          new.id = old.id ∧ r.get "title" = .ok new.title ∧
          (r.get "start" >>= timeField) = .ok new.start ∧
          (r.get "end" >>= timeField) = .ok new.end_ ∧
          r.get "meetLink" = .ok new.extendedProps.meetLink ∧
          r.get "attendees" = .ok new.extendedProps.attendees))
      st.events (handleUpdateEvent env st).state.events := by
  obtain ⟨title, start, end_, startTime, endTime, meetLink, attendees,
    htitle, hs, he, hst, het, hmeet, hatt, hrep⟩ :=
    replaceUpdated_of_record selected.id r st.events hrecord
  have hrun : (handleUpdateEvent env st).state.events = st.events.map (fun ev =>
        if ev.id.strictEq selected.id then
          { ev with title := title, start := startTime.or start, end_ := endTime.or end_,
                    extendedProps := { meetLink := meetLink, attendees := attendees } }
        else ev) := by
    simp [handleUpdateEvent, hselected, hbody, htoken, hanswer, readJson, commit, hrep]
  rw [hrun]
  refine ⟨by simp, ?_⟩
  rw [List.forall₂_map_right_iff]
  apply List.forall₂_same.2
  intro ev _
  constructor
  · intro hne; simp [hne]
  · intro heq
    simp [heq, htitle, hs, he, timeField, hst, het, hmeet, hatt, bind, Except.bind, pure,
      Except.pure]

/-- C3 at the sample: updating the event with id 5 among the three entries. -/
theorem handleUpdateEvent_replaces_witness :
    sampleState.selectedEvent = some sampleSelected ∧ isRecord sampleRecord = true ∧
    (handleUpdateEvent okEnv sampleState).state.events.length = sampleState.events.length ∧
    List.Forall₂
      (fun (old new : DisplayEvent) =>
        (old.id.strictEq sampleSelected.id = false → new = old) ∧
        (old.id.strictEq sampleSelected.id = true →
          new.id = old.id ∧ sampleRecord.get "title" = .ok new.title ∧
          (sampleRecord.get "start" >>= timeField) = .ok new.start ∧
          (sampleRecord.get "end" >>= timeField) = .ok new.end_ ∧
          sampleRecord.get "meetLink" = .ok new.extendedProps.meetLink ∧
          sampleRecord.get "attendees" = .ok new.extendedProps.attendees))
      sampleState.events (handleUpdateEvent okEnv sampleState).state.events :=
  ⟨rfl, by decide,
    handleUpdateEvent_replaces okEnv sampleState sampleSelected
      { title := "X", start := some "2024-01-02T09:00:00.000Z",
        end_ := "2024-01-02T09:30:00.000Z", attendees := ["a@b.com", "c@d.com"] }
      (.str "t0k3n") sampleRecord rfl (by rfl) (by rfl) (by rfl) (by decide)⟩

/-! ### Failed requests -/

theorem readJson_failed (answer : FetchOutcome) (fallback : String) (h : answer.failed = true) :
    ∃ e, readJson answer fallback = .error e := by
  cases answer with
  | rejected => exact ⟨_, rfl⟩
  | response ok json =>
    cases ok with
    | true => simp [FetchOutcome.failed] at h
    | false =>
      cases json with
      | none => exact ⟨_, rfl⟩
      | some data =>
        cases hm : data.get "message" with
        | error e => exact ⟨e, by simp [readJson, hm]⟩
        | ok m => exact ⟨.error (m.or (.str fallback)), by simp [readJson, hm]⟩

theorem caught_state (st : State) (label : String) (done : List Effect) (e : JsError) :
    (caught st label done e).state = st := rfl

theorem caught_notices (st : State) (label : String) (done : List Effect) (e : JsError) :
    (caught st label done e).effects.countP Effect.isErrorNotice =
      done.countP Effect.isErrorNotice + 1 := by
  simp [caught, List.countP_append, List.countP_cons, Effect.isErrorNotice]

/-- C4: when the request fails (`fetch` rejects, or the status is outside
2xx), each of `fetchAppointments`, `handleCreateEvent`, `handleUpdateEvent`
and `handleDeleteEvent` leaves the event list as it was and emits exactly one
error notification. -/
theorem failed_request_keeps_events (host : Host) (env : Env) (st : State)
    (hfailed : env.answer.failed = true) :
    ((fetchAppointments env st).state.events = st.events ∧
      (fetchAppointments env st).effects.countP Effect.isErrorNotice = 1) ∧
    ((handleCreateEvent host env st).state.events = st.events ∧
      (handleCreateEvent host env st).effects.countP Effect.isErrorNotice = 1) ∧
    ((handleUpdateEvent env st).state.events = st.events ∧
      (handleUpdateEvent env st).effects.countP Effect.isErrorNotice = 1) ∧
    ((handleDeleteEvent env st).state.events = st.events ∧
      (handleDeleteEvent env st).effects.countP Effect.isErrorNotice = 1) := by
  refine ⟨?_, ?_, ?_, ?_⟩
  · obtain ⟨e, he⟩ := readJson_failed env.answer "Failed to fetch events" hfailed
    unfold fetchAppointments
    cases ht : readToken env.session with
    | error e' => simp [caught_state, caught_notices]
    | ok tok => simp [he, caught_state, caught_notices, Effect.isErrorNotice]
  · obtain ⟨e, he⟩ := readJson_failed env.answer "Failed to create appointment" hfailed
    unfold handleCreateEvent
    by_cases hinv : (invalidEmails (emailList st.formData.attendees)).length > 0
    · simp [hinv, Effect.isErrorNotice]
    · simp only [hinv, if_false]
      unfold submitNewEvent
      cases hb : newEvent host st (emailList st.formData.attendees) with
      | error e' => simp [caught_state, caught_notices]
      | ok body =>
        cases ht : readToken env.session with
        | error e' => simp [caught_state, caught_notices]
        | ok tok => simp [he, caught_state, caught_notices, Effect.isErrorNotice]
  · obtain ⟨e, he⟩ := readJson_failed env.answer "Failed to update appointment" hfailed
    unfold handleUpdateEvent
    cases hs : st.selectedEvent with
    | none => simp [caught_state, caught_notices]
    | some selected =>
      cases hb : updatedEvent st.formData selected (emailList st.formData.attendees) with
      | error e' => simp [hb, caught_state, caught_notices]
      | ok body =>
        cases ht : readToken env.session with
        | error e' => simp [hb, ht, caught_state, caught_notices]
        | ok tok => simp [hb, ht, he, caught_state, caught_notices, Effect.isErrorNotice]
  · unfold handleDeleteEvent
    cases ht : readToken env.session with
    | error e' => simp [caught_state, caught_notices]
    | ok tok =>
      cases hs : st.selectedEvent with
      | none => simp [caught_state, caught_notices]
      | some selected =>
        cases ha : env.answer with
        | rejected => simp [caught_state, caught_notices, Effect.isErrorNotice]
        | response ok json =>
          cases ok with
          | true => simp [ha, FetchOutcome.failed] at hfailed
          | false => simp [caught_state, caught_notices, Effect.isErrorNotice]

/-- C4 at the sample: a list fetch, a create, an update and a delete answered
with a status outside 2xx. -/
theorem failed_request_keeps_events_witness :
    failedEnv.answer.failed = true ∧
    ((fetchAppointments failedEnv sampleState).state.events = sampleState.events ∧
      (fetchAppointments failedEnv sampleState).effects.countP Effect.isErrorNotice = 1) ∧
    ((handleCreateEvent isoHost failedEnv sampleState).state.events = sampleState.events ∧
      (handleCreateEvent isoHost failedEnv sampleState).effects.countP
        Effect.isErrorNotice = 1) ∧
    ((handleUpdateEvent failedEnv sampleState).state.events = sampleState.events ∧
      (handleUpdateEvent failedEnv sampleState).effects.countP Effect.isErrorNotice = 1) ∧
    ((handleDeleteEvent failedEnv sampleState).state.events = sampleState.events ∧
      (handleDeleteEvent failedEnv sampleState).effects.countP Effect.isErrorNotice = 1) :=
  ⟨rfl, failed_request_keeps_events isoHost failedEnv sampleState rfl⟩


/-! ### Attendee tokens and the shape check -/

theorem matchAll_nil (s : List Char) : matchAll [] s = true ↔ s = [] := by
  cases s <;> simp [matchAll]

theorem matchAll_once (cls : CharClass) (ps : List Piece) (s : List Char) :
    matchAll (⟨cls, false⟩ :: ps) s = true ↔
      ∃ c rest, s = c :: rest ∧ cls.test c = true ∧ matchAll ps rest = true := by
  cases s with
  | nil => simp [matchAll]
  | cons c cs =>
    simp only [matchAll, Bool.and_eq_true, Bool.or_eq_true, Bool.false_eq_true, false_and,
      or_false, List.cons.injEq]
    constructor
    · rintro ⟨h1, h2⟩
      exact ⟨c, cs, ⟨rfl, rfl⟩, h1, h2⟩
    · rintro ⟨c1, rest, ⟨rfl, rfl⟩, h1, h2⟩
      exact ⟨h1, h2⟩

theorem matchAll_plus (cls : CharClass) (ps : List Piece) (s : List Char) :
    matchAll (⟨cls, true⟩ :: ps) s = true ↔
      ∃ a rest, a ≠ [] ∧ s = a ++ rest ∧ (∀ c ∈ a, cls.test c = true) ∧
        matchAll ps rest = true := by
  induction s with
  | nil =>
    simp only [matchAll, Bool.false_eq_true, false_iff]
    rintro ⟨a, rest, ha, hs, -, -⟩
    cases a with
    | nil => exact ha rfl
    | cons x xs => simp at hs
  | cons c cs ih =>
    simp only [matchAll, Bool.and_eq_true, Bool.or_eq_true, true_and]
    constructor
    · rintro ⟨hc, h | h⟩
      · exact ⟨[c], cs, by simp, by simp, by simpa using hc, h⟩
      · obtain ⟨a, rest, -, hs, hall, hm⟩ := ih.1 h
        refine ⟨c :: a, rest, by simp, by simp [hs], ?_, hm⟩
        intro x hx
        rcases List.mem_cons.1 hx with rfl | hx
        · exact hc
        · exact hall x hx
    · rintro ⟨a, rest, ha, hs, hall, hm⟩
      cases a with
      | nil => exact absurd rfl ha
      | cons x xs =>
        simp only [List.cons_append, List.cons.injEq] at hs
        obtain ⟨rfl, rfl⟩ := hs
        refine ⟨hall c (List.mem_cons_self _ _), ?_⟩
        cases xs with
        | nil => left; simpa using hm
        | cons y ys =>
          right
          exact ih.2 ⟨y :: ys, rest, by simp, rfl,
            fun z hz => hall z (List.mem_cons_of_mem _ hz), hm⟩

/-- The pattern `/^\S+@\S+\.\S+$/` matches exactly the texts of the shape
`LocalAtDomain`. -/
theorem emailShape_iff (email : String) :
    emailShape email = true ↔ LocalAtDomain email.toList := by
  unfold emailShape emailPattern LocalAtDomain
  rw [matchAll_plus]
  constructor
  · rintro ⟨loc, r1, hloc, hs, hlocAll, h1⟩
    rw [matchAll_once] at h1
    obtain ⟨c1, r2, rfl, hc1, h2⟩ := h1
    rw [matchAll_plus] at h2
    obtain ⟨dom, r3, hdom, rfl, hdomAll, h3⟩ := h2
    rw [matchAll_once] at h3
    obtain ⟨c2, r4, rfl, hc2, h4⟩ := h3
    rw [matchAll_plus] at h4
    obtain ⟨rest, r5, hrest, rfl, hrestAll, h5⟩ := h4
    rw [matchAll_nil] at h5
    subst h5
    simp only [CharClass.test, beq_iff_eq] at hc1 hc2
    subst hc1 hc2
    refine ⟨loc, dom, rest, hloc, hdom, hrest, by simpa using hs, ?_⟩
    intro c hc
    rw [hs] at hc
    simp only [List.mem_append, List.mem_cons, List.append_nil] at hc
    simp only [CharClass.test, Bool.not_eq_true'] at hlocAll hdomAll hrestAll
    rcases hc with h | rfl | h | rfl | h
    · exact hlocAll c h
    · decide
    · exact hdomAll c h
    · decide
    · exact hrestAll c h
  · rintro ⟨loc, dom, rest, hloc, hdom, hrest, hs, hall⟩
    have hmem : ∀ c, c ∈ loc ∨ c ∈ dom ∨ c ∈ rest → CharClass.nonSpace.test c = true := by
      intro c hc
      simp only [CharClass.test, Bool.not_eq_true']
      apply hall
      rw [hs]
      simp only [List.mem_append, List.mem_cons]
      tauto
    refine ⟨loc, _, hloc, hs, fun c hc => hmem c (Or.inl hc), ?_⟩
    rw [matchAll_once]
    refine ⟨_, _, rfl, by simp [CharClass.test], ?_⟩
    rw [matchAll_plus]
    refine ⟨dom, _, hdom, rfl, fun c hc => hmem c (Or.inr (Or.inl hc)), ?_⟩
    rw [matchAll_once]
    refine ⟨_, _, rfl, by simp [CharClass.test], ?_⟩
    rw [matchAll_plus]
    exact ⟨rest, [], hrest, by simp, fun c hc => hmem c (Or.inr (Or.inr hc)), by simp [matchAll]⟩

/-- C7: for every attendee text, the list obtained by splitting on runs of
comma, semicolon and whitespace and dropping the pieces that trim to nothing
(the `emailList` of both `handleCreateEvent` and `handleUpdateEvent`) has no
empty token: none equals `""` and each has at least one character. -/
theorem emailList_no_empty (attendees : String) :
    (emailList attendees).countP (fun email => email == "") = 0 ∧
    (emailList attendees).all (fun email => 0 < email.length) = true := by
  have h : ∀ email ∈ emailList attendees, email ≠ "" := by
    intro email hmem heq
    simp only [emailList, List.mem_map, List.mem_filter] at hmem
    obtain ⟨cs, ⟨-, hcs⟩, rfl⟩ := hmem
    have : cs = [] := by
      have := congrArg String.data heq
      simpa using this
    subst this
    simp [trim] at hcs
  constructor
  · rw [List.countP_eq_zero]
    intro email hmem
    simpa using h email hmem
  · rw [List.all_eq_true]
    intro email hmem
    have := h email hmem
    simp only [decide_eq_true_eq]
    rw [String.length]
    cases hd : email.data with
    | nil => exact absurd (String.ext hd) this
    | cons c cs => simp

/-- C5: for every attendee text, the tokens `handleCreateEvent` flags are, in
order, exactly the tokens that fail the shape check (the pattern
`/^\S+@\S+\.\S+$/`, that is `LocalAtDomain`). When at least one is flagged the
handler reports them in one notification, makes no network call and leaves
the state as it was; when none is flagged it goes on to the submission (its
`try` statement). For `"a@b.com, bad, c@d.com"` the flagged list is
`["bad"]`. -/
theorem handleCreateEvent_validation (host : Host) (env : Env) (st : State) :
    (∀ email, email ∈ invalidEmails (emailList st.formData.attendees) ↔
      email ∈ emailList st.formData.attendees ∧ ¬ LocalAtDomain email.toList) ∧
    invalidEmails (emailList st.formData.attendees) =
      (emailList st.formData.attendees).filter (fun email => !emailShape email) ∧
    (invalidEmails (emailList st.formData.attendees) ≠ [] →
      (handleCreateEvent host env st).effects =
        [.toastError (.text ("Invalid email(s): " ++
          ", ".intercalate (invalidEmails (emailList st.formData.attendees))))] ∧
      (handleCreateEvent host env st).effects.countP Effect.isFetch = 0 ∧
      (handleCreateEvent host env st).state = st) ∧
    (invalidEmails (emailList st.formData.attendees) = [] →
      handleCreateEvent host env st =
        submitNewEvent host env st (emailList st.formData.attendees)) ∧
    invalidEmails (emailList "a@b.com, bad, c@d.com") = ["bad"] := by
  refine ⟨?_, rfl, ?_, ?_, by decide⟩
  · intro email
    simp only [invalidEmails, List.mem_filter, Bool.not_eq_true', and_congr_right_iff]
    intro _
    rw [← emailShape_iff]
    simp
  · intro hne
    have hpos : (invalidEmails (emailList st.formData.attendees)).length > 0 :=
      List.length_pos.2 hne
    simp [handleCreateEvent, hpos, Effect.isFetch]
  · intro hnil
    simp [handleCreateEvent, hnil]

/-- C5 at the sample: the draft `"a@b.com, bad, c@d.com"` is reported and
nothing is sent. -/
theorem handleCreateEvent_validation_witness :
    invalidEmails (emailList flaggedState.formData.attendees) ≠ [] ∧
    (handleCreateEvent isoHost okEnv flaggedState).effects =
      [.toastError (.text "Invalid email(s): bad")] ∧
    (handleCreateEvent isoHost okEnv flaggedState).effects.countP Effect.isFetch = 0 ∧
    (handleCreateEvent isoHost okEnv flaggedState).state = flaggedState :=
  ⟨by decide, (handleCreateEvent_validation isoHost okEnv flaggedState).2.2.1 (by decide)⟩

/-! ### The submitted appointment -/

theorem endTimestamp_minutes (t d : Int) :
    endTimestamp (some t) (.minutes d) =
      if (t + d * 60000).natAbs ≤ 8640000000000000 then .ok (toISOString (t + d * 60000))
      else .error .rangeError := by
  simp only [endTimestamp, timeClip]
  by_cases hr : (t + d * 60000).natAbs ≤ 8640000000000000 <;> simp [hr]

/-- What `newEvent` holds when it is built. -/
theorem newEvent_ok (host : Host) (st : State) (emails : List String) (body : AppointmentBody)
    (h : newEvent host st emails = .ok body) :
    ∃ t d, newDate host st.selectedDate = some t ∧ st.formData.duration = .minutes d ∧
      (t + d * 60000).natAbs ≤ 8640000000000000 ∧
      body = { title := st.formData.title, start := st.selectedDate,
               end_ := toISOString (t + d * 60000), attendees := emails } := by
  unfold newEvent at h
  cases hstart : newDate host st.selectedDate with
  | none => simp [hstart, endTimestamp] at h
  | some t =>
    cases hdur : st.formData.duration with
    | nan => simp [hstart, hdur, endTimestamp] at h
    | minutes d =>
      rw [hstart, hdur, endTimestamp_minutes] at h
      by_cases hr : (t + d * 60000).natAbs ≤ 8640000000000000
      · simp only [hr, if_true, Except.ok.injEq] at h
        exact ⟨t, d, rfl, rfl, hr, h.symm⟩
      · simp [hr] at h

theorem newEvent_of_range (host : Host) (st : State) (emails : List String) (t d : Int)
    (hstart : newDate host st.selectedDate = some t) (hdur : st.formData.duration = .minutes d)
    (hr : (t + d * 60000).natAbs ≤ 8640000000000000) :
    newEvent host st emails =
      .ok { title := st.formData.title, start := st.selectedDate,
            end_ := toISOString (t + d * 60000), attendees := emails } := by
  unfold newEvent
  rw [hstart, hdur, endTimestamp_minutes]
  simp [hr]

theorem updatedEvent_ok (form : FormData) (selected : CalendarEvent) (emails : List String)
    (body : AppointmentBody) (h : updatedEvent form selected emails = .ok body) :
    ∃ t d, selected.start = .date (some t) ∧ form.duration = .minutes d ∧
      (t + d * 60000).natAbs ≤ 8640000000000000 ∧
      body = { title := form.title, start := some (toISOString t),
               end_ := toISOString (t + d * 60000), attendees := emails } := by
  unfold updatedEvent at h
  cases hstart : selected.start with
  | null => simp [hstart] at h
  | date time =>
    cases time with
    | none => simp [hstart] at h
    | some t =>
      cases hdur : form.duration with
      | nan => simp [hstart, hdur, endTimestamp] at h
      | minutes d =>
        simp only [hstart, hdur, endTimestamp_minutes] at h
        by_cases hr : (t + d * 60000).natAbs ≤ 8640000000000000
        · simp only [hr, if_true, Except.ok.injEq] at h
          exact ⟨t, d, rfl, rfl, hr, h.symm⟩
        · simp [hr] at h

theorem updatedEvent_of_range (form : FormData) (selected : CalendarEvent)
    (emails : List String) (t d : Int)
    (hstart : selected.start = .date (some t)) (hdur : form.duration = .minutes d)
    (hr : (t + d * 60000).natAbs ≤ 8640000000000000) :
    updatedEvent form selected emails =
      .ok { title := form.title, start := some (toISOString t),
            end_ := toISOString (t + d * 60000), attendees := emails } := by
  unfold updatedEvent
  simp [hstart, hdur, endTimestamp_minutes, hr]

theorem mem_caught_fetch (st : State) (label : String) (done : List Effect) (e : JsError)
    (request : Request) :
    Effect.fetch request ∈ (caught st label done e).effects ↔ Effect.fetch request ∈ done := by
  simp [caught]

/-- Every request of `handleCreateEvent` is the POST of `newEvent`. -/
theorem handleCreateEvent_request (host : Host) (env : Env) (st : State) (request : Request)
    (h : Effect.fetch request ∈ (handleCreateEvent host env st).effects) :
    ∃ body, newEvent host st (emailList st.formData.attendees) = .ok body ∧
      request.method = .POST ∧ request.body = some body := by
  unfold handleCreateEvent at h
  by_cases hinv : (invalidEmails (emailList st.formData.attendees)).length > 0
  · simp [hinv] at h
  · simp only [hinv, if_false] at h
    unfold submitNewEvent at h
    cases hb : newEvent host st (emailList st.formData.attendees) with
    | error e => simp [hb, mem_caught_fetch] at h
    | ok body =>
      refine ⟨body, rfl, ?_⟩
      cases ht : readToken env.session with
      | error e => simp [hb, ht, mem_caught_fetch] at h
      | ok tok =>
        cases hj : readJson env.answer "Failed to create appointment" with
        | error e =>
          simp [hb, ht, hj, mem_caught_fetch] at h
          subst h; exact ⟨rfl, rfl⟩
        | ok data =>
          simp only [hb, ht, hj, commit] at h
          cases hu : appendCreated data st.events with
          | error e => simp [hu] at h; subst h; exact ⟨rfl, rfl⟩
          | ok events => simp [hu] at h; subst h; exact ⟨rfl, rfl⟩

/-- Every request of `handleUpdateEvent` is the PUT of `updatedEvent`. -/
theorem handleUpdateEvent_request (env : Env) (st : State) (request : Request)
    (h : Effect.fetch request ∈ (handleUpdateEvent env st).effects) :
    ∃ selected body, st.selectedEvent = some selected ∧
      updatedEvent st.formData selected (emailList st.formData.attendees) = .ok body ∧
      request.method = .PUT ∧ request.body = some body := by
  unfold handleUpdateEvent at h
  cases hs : st.selectedEvent with
  | none => simp [hs, mem_caught_fetch] at h
  | some selected =>
    cases hb : updatedEvent st.formData selected (emailList st.formData.attendees) with
    | error e => simp [hs, hb, mem_caught_fetch] at h
    | ok body =>
      refine ⟨selected, body, rfl, hb, ?_⟩
      cases ht : readToken env.session with
      | error e => simp [hs, hb, ht, mem_caught_fetch] at h
      | ok tok =>
        cases hj : readJson env.answer "Failed to update appointment" with
        | error e =>
          simp [hs, hb, ht, hj, mem_caught_fetch] at h
          subst h; exact ⟨rfl, rfl⟩
        | ok data =>
          simp only [hs, hb, ht, hj, commit] at h
          cases hu : replaceUpdated selected.id data st.events with
          | error e => simp [hu] at h; subst h; exact ⟨rfl, rfl⟩
          | ok events => simp [hu] at h; subst h; exact ⟨rfl, rfl⟩

/-- When the checks pass, `handleCreateEvent` sends its request. -/
theorem handleCreateEvent_sends (host : Host) (env : Env) (st : State) (body : AppointmentBody)
    (authToken : JsVal)
    (hvalid : invalidEmails (emailList st.formData.attendees) = [])
    (hbody : newEvent host st (emailList st.formData.attendees) = .ok body)
    (htoken : readToken env.session = .ok authToken) :
    (handleCreateEvent host env st).effects.head? =
      some (.fetch { method := .POST, target := none, bearer := bearerOf authToken,
                     body := some body }) := by
  unfold handleCreateEvent submitNewEvent
  simp only [hvalid, List.length_nil, gt_iff_lt, lt_self_iff_false, if_false, hbody, htoken]
  cases hj : readJson env.answer "Failed to create appointment" with
  | error e => simp [caught]
  | ok data =>
    simp only [commit]
    cases hu : appendCreated data st.events <;> simp

theorem handleUpdateEvent_sends (env : Env) (st : State) (selected : CalendarEvent)
    (body : AppointmentBody) (authToken : JsVal)
    (hselected : st.selectedEvent = some selected)
    (hbody : updatedEvent st.formData selected (emailList st.formData.attendees) = .ok body)
    (htoken : readToken env.session = .ok authToken) :
    (handleUpdateEvent env st).effects.head? =
      some (.fetch { method := .PUT, target := some selected.id, bearer := bearerOf authToken,
                     body := some body }) := by
  unfold handleUpdateEvent
  simp only [hselected, hbody, htoken]
  cases hj : readJson env.answer "Failed to update appointment" with
  | error e => simp [caught]
  | ok data =>
    simp only [commit]
    cases hu : replaceUpdated selected.id data st.events <;> simp

/-- C6: with a draft of `d` integer minutes, every appointment
`handleCreateEvent` submits for a valid `selectedDate` of time value `t` has
the end `toISOString (t + d * 60000)`, and so has every appointment
`handleUpdateEvent` submits for a selected event that starts at `t`, whatever
the draft was prefilled from; each handler does submit it when the checks
before the request pass and the sum is a valid Date. For `selectedDate`
`"2024-01-01T10:00:00Z"` and thirty minutes the end is
`"2024-01-01T10:30:00.000Z"`. -/
theorem submitted_end_is_start_plus_duration (host : Host) (env : Env) (st : State) (t d : Int)
    (hdur : st.formData.duration = .minutes d) :
    (newDate host st.selectedDate = some t →
      (∀ request, Effect.fetch request ∈ (handleCreateEvent host env st).effects →
        ∃ body, request.body = some body ∧ body.start = st.selectedDate ∧
          body.end_ = toISOString (t + d * 60000)) ∧
      (∀ authToken, (t + d * 60000).natAbs ≤ 8640000000000000 →
        invalidEmails (emailList st.formData.attendees) = [] →
        readToken env.session = .ok authToken →
        (handleCreateEvent host env st).effects.head? =
          some (.fetch { method := .POST, target := none, bearer := bearerOf authToken,
                         body := some { title := st.formData.title, start := st.selectedDate,
                                        end_ := toISOString (t + d * 60000),
                                        attendees := emailList st.formData.attendees } }))) ∧
    (∀ selected, st.selectedEvent = some selected → selected.start = .date (some t) →
      (∀ request, Effect.fetch request ∈ (handleUpdateEvent env st).effects →
        ∃ body, request.body = some body ∧ body.start = some (toISOString t) ∧
          body.end_ = toISOString (t + d * 60000)) ∧
      (∀ authToken, (t + d * 60000).natAbs ≤ 8640000000000000 →
        readToken env.session = .ok authToken →
        (handleUpdateEvent env st).effects.head? =
          some (.fetch { method := .PUT, target := some selected.id,
                         bearer := bearerOf authToken,
                         body := some { title := st.formData.title,
                                        start := some (toISOString t),
                                        end_ := toISOString (t + d * 60000),
                                        attendees := emailList st.formData.attendees } }))) ∧
    (handleCreateEvent isoHost okEnv sampleState).effects.head? =
      some (.fetch { method := .POST, target := none, bearer := some (.str "t0k3n"),
                     body := some { title := "X", start := some "2024-01-01T10:00:00Z",
                                    end_ := "2024-01-01T10:30:00.000Z",
                                    attendees := ["a@b.com", "c@d.com"] } }) := by
  refine ⟨?_, ?_, by rfl⟩
  · intro hstart
    constructor
    · intro request hmem
      obtain ⟨body, hbody, -, hreq⟩ := handleCreateEvent_request host env st request hmem
      obtain ⟨t', d', ht', hd', -, rfl⟩ := newEvent_ok host st _ body hbody
      rw [hstart] at ht'
      rw [hdur] at hd'
      cases ht'
      cases hd'
      exact ⟨_, hreq, rfl, rfl⟩
    · intro authToken hr hvalid htoken
      exact handleCreateEvent_sends host env st _ authToken hvalid
        (newEvent_of_range host st _ t d hstart hdur hr) htoken
  · intro selected hselected hstart
    constructor
    · intro request hmem
      obtain ⟨selected', body, hsel', hbody, -, hreq⟩ :=
        handleUpdateEvent_request env st request hmem
      rw [hselected] at hsel'
      cases hsel'
      obtain ⟨t', d', ht', hd', -, rfl⟩ := updatedEvent_ok st.formData selected _ body hbody
      rw [hstart] at ht'
      rw [hdur] at hd'
      cases ht'
      cases hd'
      exact ⟨_, hreq, rfl, rfl⟩
    · intro authToken hr htoken
      exact handleUpdateEvent_sends env st selected _ authToken hselected
        (updatedEvent_of_range st.formData selected _ t d hstart hdur hr) htoken

/-- C6 at the sample: thirty minutes from `"2024-01-01T10:00:00Z"`. -/
theorem submitted_end_is_start_plus_duration_witness :
    sampleState.formData.duration = .minutes 30 ∧
    newDate isoHost sampleState.selectedDate = some 1704103200000 ∧
    (∀ request, Effect.fetch request ∈ (handleCreateEvent isoHost okEnv sampleState).effects →
      ∃ body, request.body = some body ∧ body.start = sampleState.selectedDate ∧
        body.end_ = toISOString (1704103200000 + 30 * 60000)) :=
  ⟨rfl, by decide,
    ((submitted_end_is_start_plus_duration isoHost okEnv sampleState 1704103200000 30 rfl).1
      (by decide)).1⟩

/-- C9 fails as stated: a draft of minus thirty minutes is submitted with its
end half an hour before its start, and a draft of zero minutes is submitted
with its end equal to its start. -/
theorem submitted_end_not_after_start :
    ((handleCreateEvent isoHost okEnv backwardState).effects.head? =
      some (.fetch { method := .POST, target := none, bearer := some (.str "t0k3n"),
                     body := some { title := "X", start := some "2024-01-01T10:00:00Z",
                                    end_ := "2024-01-01T09:30:00.000Z",
                                    attendees := ["a@b.com", "c@d.com"] } }) ∧
      isoDateParse "2024-01-01T10:00:00Z" = some 1704103200000 ∧
      isoDateParse "2024-01-01T09:30:00.000Z" = some 1704101400000) ∧
    ((handleCreateEvent isoHost okEnv zeroState).effects.head? =
      some (.fetch { method := .POST, target := none, bearer := some (.str "t0k3n"),
                     body := some { title := "X", start := some "2024-01-01T10:00:00Z",
                                    end_ := "2024-01-01T10:00:00.000Z",
                                    attendees := ["a@b.com", "c@d.com"] } }) ∧
      isoDateParse "2024-01-01T10:00:00.000Z" = some 1704103200000) :=
  ⟨⟨by rfl, by decide, by decide⟩, by rfl, by decide⟩

/-- The time value of `new Date(selectedDate)` is within the range of Date. -/
theorem newDate_range (host : Host) (selectedDate : Option String) (t : Int)
    (h : newDate host selectedDate = some t) : t.natAbs ≤ 8640000000000000 := by
  unfold newDate at h
  cases selectedDate with
  | none =>
    simp only [Option.some.injEq] at h
    subst h
    decide
  | some text =>
    cases hp : host.dateParse text with
    | none => simp [hp] at h
    | some u =>
      simp only [hp, Option.some_bind, timeClip] at h
      by_cases hr : u.natAbs ≤ 8640000000000000
      · simp only [hr, if_true, Option.some.injEq] at h
        subst h
        exact hr
      · simp [hr] at h

/-- C9, amended: with a draft of a positive integer number `d` of minutes,
every appointment `handleCreateEvent` or `handleUpdateEvent` submits has an
end strictly later than its start. For a create the start is `selectedDate`,
whose instant is its time value `t`; for an update the start is the rendering
of the selected event's start `t`. In both the end is the rendering of the
instant `t + d * 60000`, which is a valid Date (within 8.64e15 ms of the
epoch) and strictly later than `t`. -/
theorem submitted_end_after_start (host : Host) (env : Env) (st : State) (d : Int)
    (hdur : st.formData.duration = .minutes d) (hpos : 0 < d) :
    (∀ request, Effect.fetch request ∈ (handleCreateEvent host env st).effects →
      ∃ body t, request.body = some body ∧ body.start = st.selectedDate ∧
        newDate host st.selectedDate = some t ∧ t.natAbs ≤ 8640000000000000 ∧
        body.end_ = toISOString (t + d * 60000) ∧
        (t + d * 60000).natAbs ≤ 8640000000000000 ∧ t < t + d * 60000) ∧
    (∀ request, Effect.fetch request ∈ (handleUpdateEvent env st).effects →
      ∃ selected body t, st.selectedEvent = some selected ∧
        selected.start = .date (some t) ∧ request.body = some body ∧
        body.start = some (toISOString t) ∧
        body.end_ = toISOString (t + d * 60000) ∧
        (t + d * 60000).natAbs ≤ 8640000000000000 ∧ t < t + d * 60000) := by
  constructor
  · intro request hmem
    obtain ⟨body, hbody, -, hreq⟩ := handleCreateEvent_request host env st request hmem
    obtain ⟨t, d', ht, hd', hr, rfl⟩ := newEvent_ok host st _ body hbody
    rw [hdur] at hd'
    cases hd'
    exact ⟨_, t, hreq, rfl, ht, newDate_range host _ t ht, rfl, hr, by omega⟩
  · intro request hmem
    obtain ⟨selected, body, hsel, hbody, -, hreq⟩ :=
      handleUpdateEvent_request env st request hmem
    obtain ⟨t, d', ht, hd', hr, rfl⟩ := updatedEvent_ok st.formData selected _ body hbody
    rw [hdur] at hd'
    cases hd'
    exact ⟨selected, _, t, hsel, ht, hreq, rfl, rfl, hr, by omega⟩

/-- C9, amended, at the sample: the thirty-minute draft, as a create and as an
update of the selected event. -/
theorem submitted_end_after_start_witness :
    sampleState.formData.duration = .minutes 30 ∧ (0 : Int) < 30 ∧
    (∀ request, Effect.fetch request ∈ (handleCreateEvent isoHost okEnv sampleState).effects →
      ∃ body t, request.body = some body ∧ body.start = sampleState.selectedDate ∧
        newDate isoHost sampleState.selectedDate = some t ∧ t.natAbs ≤ 8640000000000000 ∧
        body.end_ = toISOString (t + 30 * 60000) ∧
        (t + 30 * 60000).natAbs ≤ 8640000000000000 ∧ t < t + 30 * 60000) ∧
    (∀ request, Effect.fetch request ∈ (handleUpdateEvent okEnv sampleState).effects →
      ∃ selected body t, sampleState.selectedEvent = some selected ∧
        selected.start = .date (some t) ∧ request.body = some body ∧
        body.start = some (toISOString t) ∧
        body.end_ = toISOString (t + 30 * 60000) ∧
        (t + 30 * 60000).natAbs ≤ 8640000000000000 ∧ t < t + 30 * 60000) :=
  ⟨rfl, by decide, submitted_end_after_start isoHost okEnv sampleState 30 rfl (by decide)⟩

/-! ### The display entry of a record -/

/-- C8 fails as stated: for a record whose nested `start.dateTime` is there
and is the empty text, the display entry's start is not that text but the
whole nested object. -/
theorem mapEvent_empty_dateTime :
    ∃ entry, mapEvent emptyNestedRecord = .ok entry ∧
      (emptyNestedRecord.get "start" >>= fun start => start.get "dateTime") = .ok (.str "") ∧
      entry.start = .obj [("dateTime", .str "")] ∧ entry.start ≠ .str "" :=
  ⟨_, rfl, rfl, rfl, by
    show JsVal.obj [("dateTime", .str "")] ≠ .str ""
    simp⟩

/-- C8, amended: for every record (its `start` and `end` present), the display
entry has its start equal to `start.dateTime` when that nested field is
truthy (for a text: not empty) and equal to `start` itself otherwise, and
likewise its end. A flat text is kept as it is and a nested object with a
non-empty `dateTime` text gives that text, so both shapes are accepted. The
entry `handleCreateEvent` appends for the record is the entry
`fetchAppointments` makes of it. -/
theorem mapEvent_time_fields (r : JsVal) (hrecord : isRecord r = true) :
    ∃ entry start end_ startTime endTime,
      mapEvent r = .ok entry ∧ createdEntry r = .ok entry ∧
      r.get "start" = .ok start ∧ r.get "end" = .ok end_ ∧
      start.get "dateTime" = .ok startTime ∧ end_.get "dateTime" = .ok endTime ∧
      entry.start = (if startTime.truthy then startTime else start) ∧
      entry.end_ = (if endTime.truthy then endTime else end_) ∧
      (∀ text, start = .str text → entry.start = .str text) ∧
      (∀ text, end_ = .str text → entry.end_ = .str text) ∧
      (∀ fields text, start = .obj fields → fields.lookup "dateTime" = some (.str text) →
        text ≠ "" → entry.start = .str text) ∧
      (∀ fields text, end_ = .obj fields → fields.lookup "dateTime" = some (.str text) →
        text ≠ "" → entry.end_ = .str text) := by
  obtain ⟨id, summary, title, start, end_, startTime, endTime, meetLink, attendees,
    -, -, -, hs, he, hst, het, -, -, hmap⟩ := mapEvent_of_record r hrecord
  refine ⟨_, start, end_, startTime, endTime, hmap, hmap, hs, he, hst, het, rfl, rfl,
    ?_, ?_, ?_, ?_⟩
  · rintro text rfl
    simp only [JsVal.get, Except.ok.injEq] at hst
    subst hst
    simp [JsVal.or, JsVal.truthy]
  · rintro text rfl
    simp only [JsVal.get, Except.ok.injEq] at het
    subst het
    simp [JsVal.or, JsVal.truthy]
  · rintro fields text rfl hlook hne
    simp only [JsVal.get, hlook, Option.getD_some, Except.ok.injEq] at hst
    subst hst
    simp [JsVal.or, JsVal.truthy, hne]
  · rintro fields text rfl hlook hne
    simp only [JsVal.get, hlook, Option.getD_some, Except.ok.injEq] at het
    subst het
    simp [JsVal.or, JsVal.truthy, hne]

/-- C8, amended, at the sample record: a nested start and a flat end. -/
theorem mapEvent_time_fields_witness :
    isRecord sampleRecord = true ∧
    ∃ entry start end_ startTime endTime,
      mapEvent sampleRecord = .ok entry ∧ createdEntry sampleRecord = .ok entry ∧
      sampleRecord.get "start" = .ok start ∧ sampleRecord.get "end" = .ok end_ ∧
      start.get "dateTime" = .ok startTime ∧ end_.get "dateTime" = .ok endTime ∧
      entry.start = (if startTime.truthy then startTime else start) ∧
      entry.end_ = (if endTime.truthy then endTime else end_) ∧
      (∀ text, start = .str text → entry.start = .str text) ∧
      (∀ text, end_ = .str text → entry.end_ = .str text) ∧
      (∀ fields text, start = .obj fields → fields.lookup "dateTime" = some (.str text) →
        text ≠ "" → entry.start = .str text) ∧
      (∀ fields text, end_ = .obj fields → fields.lookup "dateTime" = some (.str text) →
        text ≠ "" → entry.end_ = .str text) :=
  ⟨by decide, mapEvent_time_fields sampleRecord (by decide)⟩

/-! ### The modal flags -/

theorem closesOnly_caught (st : State) (label : String) (done : List Effect) (e : JsError) :
    ClosesOnly st (caught st label done e).state := ⟨id, id⟩

theorem closesOnly_commit (st : State) (updated : Except JsError (List DisplayEvent))
    (close : State → State) (effects : List Effect)
    (hclose : ∀ s, ClosesOnly s (close s)) :
    ClosesOnly st (commit st updated close effects).state := by
  unfold commit
  cases updated with
  | error e => exact ⟨id, id⟩
  | ok events => exact hclose { st with events := events }

theorem closesOnly_fetchAppointments (env : Env) (st : State) :
    ClosesOnly st (fetchAppointments env st).state := by
  unfold fetchAppointments
  cases readToken env.session with
  | error e => exact closesOnly_caught _ _ _ _
  | ok tok =>
    simp only
    cases readJson env.answer "Failed to fetch events" with
    | error e => exact closesOnly_caught _ _ _ _
    | ok data =>
      simp only
      cases mapEvents data with
      | error e => exact closesOnly_caught _ _ _ _
      | ok mapped => exact ⟨id, id⟩

theorem closesOnly_handleCreateEvent (host : Host) (env : Env) (st : State) :
    ClosesOnly st (handleCreateEvent host env st).state := by
  unfold handleCreateEvent
  simp only
  split
  · exact ⟨id, id⟩
  · unfold submitNewEvent
    simp only
    cases newEvent host st (emailList st.formData.attendees) with
    | error e => exact closesOnly_caught _ _ _ _
    | ok body =>
      simp only
      cases readToken env.session with
      | error e => exact closesOnly_caught _ _ _ _
      | ok tok =>
        simp only
        cases readJson env.answer "Failed to create appointment" with
        | error e => exact closesOnly_caught _ _ _ _
        | ok data =>
          exact closesOnly_commit _ _ _ _ (fun s => ⟨by simp, id⟩)

theorem closesOnly_handleUpdateEvent (env : Env) (st : State) :
    ClosesOnly st (handleUpdateEvent env st).state := by
  unfold handleUpdateEvent
  simp only
  cases st.selectedEvent with
  | none => exact closesOnly_caught _ _ _ _
  | some selected =>
    simp only
    cases updatedEvent st.formData selected (emailList st.formData.attendees) with
    | error e => exact closesOnly_caught _ _ _ _
    | ok body =>
      simp only
      cases readToken env.session with
      | error e => exact closesOnly_caught _ _ _ _
      | ok tok =>
        simp only
        cases readJson env.answer "Failed to update appointment" with
        | error e => exact closesOnly_caught _ _ _ _
        | ok data =>
          exact closesOnly_commit _ _ _ _ (fun s => ⟨id, by simp⟩)

theorem closesOnly_handleDeleteEvent (env : Env) (st : State) :
    ClosesOnly st (handleDeleteEvent env st).state := by
  unfold handleDeleteEvent
  simp only
  cases readToken env.session with
  | error e => exact closesOnly_caught _ _ _ _
  | ok tok =>
    cases st.selectedEvent with
    | none => exact closesOnly_caught _ _ _ _
    | some selected =>
      simp only
      cases env.answer with
      | rejected => exact closesOnly_caught _ _ _ _
      | response ok json =>
        cases ok with
        | false => exact closesOnly_caught _ _ _ _
        | true => exact ⟨id, by simp⟩

/-- C10, amended: in every state reached from the first render by actions in
which a calendar click happens only while the other modal is closed, at most
one of `isCreateModalOpen` and `isEditModalOpen` is true. -/
theorem reachable_one_modal (host : Host) (st : State) (h : Reachable host st) :
    (st.isCreateModalOpen && st.isEditModalOpen) = false := by
  induction h with
  | initial => rfl
  | step st a _ hguard ih =>
    have hmono : ∀ after, ClosesOnly st after →
        (after.isCreateModalOpen && after.isEditModalOpen) = false := by
      intro after hc
      cases h1 : after.isCreateModalOpen <;> cases h2 : after.isEditModalOpen <;> simp
      have := hc.1 h1
      have := hc.2 h2
      simp_all
    cases a with
    | mount env => exact hmono _ (closesOnly_fetchAppointments env st)
    | dateClick dateStr =>
      simp only [Action.reachesCalendar, Bool.not_eq_true'] at hguard
      simp [step, handleDateClick, hguard]
    | eventClick event =>
      simp only [Action.reachesCalendar, Bool.not_eq_true'] at hguard
      simp only [step, handleEventClick]
      cases prefillAttendees event.attendees <;> simp [hguard]
    | submitCreate env => exact hmono _ (closesOnly_handleCreateEvent host env st)
    | submitUpdate env => exact hmono _ (closesOnly_handleUpdateEvent env st)
    | deleteClick env => exact hmono _ (closesOnly_handleDeleteEvent env st)
    | closeCreate => simp [step]
    | closeEdit => simp [step]
    | changeTitle value => simpa [step] using ih
    | changeDuration value => simpa [step] using ih
    | changeAttendees value => simpa [step] using ih

/-- C10 fails as stated: a date click followed by an event click leaves both
modal flags true. -/
theorem both_modals_open :
    (run isoHost State.initial [.dateClick "2024-01-01", .eventClick sampleSelected]).isCreateModalOpen
      = true ∧
    (run isoHost State.initial [.dateClick "2024-01-01", .eventClick sampleSelected]).isEditModalOpen
      = true :=
  ⟨by decide, by decide⟩

/-- C10, amended, at the state after one date click. -/
theorem reachable_one_modal_witness :
    Reachable isoHost (step isoHost State.initial (.dateClick "2024-01-01")) ∧
    ((step isoHost State.initial (.dateClick "2024-01-01")).isCreateModalOpen &&
      (step isoHost State.initial (.dateClick "2024-01-01")).isEditModalOpen) = false :=
  ⟨Reachable.step State.initial (.dateClick "2024-01-01") Reachable.initial rfl,
    reachable_one_modal isoHost _
      (Reachable.step State.initial (.dateClick "2024-01-01") Reachable.initial rfl)⟩

end CalendarScheduler
